import Mathlib

/-!
Verification development for the motion-control core of the robotic-arm
controller: the analytic inverse-kinematics solver, the reachability
predicate, the Cartesian trajectory planner, the cancellable
trajectory-execution state machine, and the echo-suppressing pose
synchronization channel.

The embedding is a shallow one over the real numbers: the source's
floating-point arithmetic is idealized as real arithmetic, `Math.sqrt`,
`Math.cos`, `Math.sin` become `Real.sqrt`, `Real.cos`, `Real.sin`, and
`Math.atan2(y, x)` becomes the argument of the complex number `x + i y`
(both return the angle in `(-pi, pi]`, with `atan2 0 0 = 0 = arg 0`).
The React component state together with the mutable refs of the executor
is modelled as an explicit state record, and each handler or timer
callback as a pure state-transition function.
-/

open Classical

noncomputable section

/-- `Math.atan2(y, x)`: the angle of the point `(x, y)` in `(-pi, pi]`,
modelled as the argument of the complex number `x + i y`. -/
def atan2 (y x : ℝ) : ℝ := Complex.arg ⟨x, y⟩

/-- One Cartesian waypoint `{x, y, z, roll, pitch}` (type `CartesianPoint`
in the source). -/
@[ext] structure CartesianPoint where
  x : ℝ
  y : ℝ
  z : ℝ
  roll : ℝ
  pitch : ℝ

instance : Inhabited CartesianPoint := ⟨⟨0, 0, 0, 0, 0⟩⟩

/-- The live `Position` state: pose plus the two auxiliary joints. -/
@[ext] structure Position where
  x : ℝ
  y : ℝ
  z : ℝ
  roll : ℝ
  pitch : ℝ
  joint8 : ℝ
  joint9 : ℝ

/-- The five joint angles (degrees), type `Angles` in the source. -/
@[ext] structure Angles where
  q1 : ℝ
  q2 : ℝ
  q3 : ℝ
  q4 : ℝ
  q5 : ℝ

/-- Link lengths `const l1 = 0.1, l2 = 0.43, l3 = 0.43, l4 = 0.213`. -/
def l1 : ℝ := 0.1

/-- Second link length. -/
def l2 : ℝ := 0.43

/-- Third link length. -/
def l3 : ℝ := 0.43

/-- Wrist link length. -/
def l4 : ℝ := 0.213

/-- `radToDeg = (r) => (r * 180) / Math.PI`. -/
def radToDeg (r : ℝ) : ℝ := r * 180 / Real.pi

/-- `deg2rad = (d) => (d * Math.PI) / 180`. -/
def deg2rad (d : ℝ) : ℝ := d * Real.pi / 180

/-- The clamped planar-reduction cosine parameter computed inside
`inverseKinematics`:
`a = Math.sqrt(x ** 2 + y ** 2) - l4 * Math.cos(pitch)`,
`b = z - l4 * Math.sin(pitch) - l1`,
`d = (a ** 2 + b ** 2 - l2 ** 2 - l3 ** 2) / (2 * l2 * l3)`,
then `d = Math.max(-1, Math.min(1, d))`. -/
def ikClampedD (x y z pitch : ℝ) : ℝ :=
  let a := Real.sqrt (x ^ 2 + y ^ 2) - l4 * Real.cos pitch
  let b := z - l4 * Real.sin pitch - l1
  max (-1) (min 1 ((a ^ 2 + b ^ 2 - l2 ^ 2 - l3 ^ 2) / (2 * l2 * l3)))

/-- `inverseKinematics(x, y, z, roll, pitch)` from the source; the clamped
parameter `d` is factored out as `ikClampedD`. -/
def inverseKinematics (x y z roll pitch : ℝ) : Angles :=
  let q1 := atan2 y x
  let q5 := roll
  let a := Real.sqrt (x ^ 2 + y ^ 2) - l4 * Real.cos pitch
  let b := z - l4 * Real.sin pitch - l1
  let d := ikClampedD x y z pitch
  let q3 := -(atan2 (Real.sqrt (1 - d ^ 2)) d)
  let q2 := atan2 b a - atan2 (l3 * Real.sin q3) (l2 + l3 * Real.cos q3)
  let q4 := pitch - q2 - q3
  ⟨radToDeg q1, radToDeg q2, radToDeg q3, radToDeg q4, radToDeg q5⟩

/-- The unclamped feasibility parameter recomputed by `isReachable`:
`a = Math.sqrt(x * x + y * y) - l4 * Math.cos(pitch)`,
`b = z - l4 * Math.sin(pitch) - l1`,
`d = (a * a + b * b - l2 * l2 - l3 * l3) / (2 * l2 * l3)`. -/
def reachD (x y z pitch : ℝ) : ℝ :=
  let a := Real.sqrt (x * x + y * y) - l4 * Real.cos pitch
  let b := z - l4 * Real.sin pitch - l1
  (a * a + b * b - l2 * l2 - l3 * l3) / (2 * l2 * l3)

/-- `isReachable(x, y, z, roll, pitch)`: returns `Math.abs(d) <= 1.0`.
The `roll` argument is accepted but, as in the source, unused. -/
def isReachable (x y z roll pitch : ℝ) : Prop := |reachD x y z pitch| ≤ 1

/-- `lerp = (a, b, t) => a + (b - a) * t`. -/
def lerp (a b t : ℝ) : ℝ := a + (b - a) * t

/-- The Euclidean translation distance computed by the planner:
`dx = end.x - start.x` (likewise `dy`, `dz`),
`dist = Math.sqrt(dx * dx + dy * dy + dz * dz)`. -/
def trajDist (pStart pEnd : CartesianPoint) : ℝ :=
  Real.sqrt ((pEnd.x - pStart.x) * (pEnd.x - pStart.x) +
    (pEnd.y - pStart.y) * (pEnd.y - pStart.y) +
    (pEnd.z - pStart.z) * (pEnd.z - pStart.z))

/-- The emission loop of the planner:
`for (let i = 1; i <= numSteps; i++) { const t = i / numSteps; waypoints.push({...}) }`,
written over the 0-based `List.range` (so list index `i` carries `t = (i+1)/numSteps`). -/
def emitWaypoints (pStart pEnd : CartesianPoint) (numSteps : ℕ) : List CartesianPoint :=
  (List.range numSteps).map fun (i : ℕ) =>
    let t := ((i : ℝ) + 1) / (numSteps : ℝ)
    { x := lerp pStart.x pEnd.x t
      y := lerp pStart.y pEnd.y t
      z := lerp pStart.z pEnd.z t
      roll := lerp pStart.roll pEnd.roll t
      pitch := lerp pStart.pitch pEnd.pitch t }

/-- `generateLinearTrajectory(start, end, stepSize, orientationStep)` from the
source. `Math.ceil` on a positive real is `Int.ceil`; `max 2 ⌈·⌉.toNat` equals
the source's `Math.max(2, Math.ceil(·))` whenever the loop terminates at all
(for a nonpositive ceiling both give `2`). -/
def generateLinearTrajectory (pStart pEnd : CartesianPoint)
    (stepSize orientationStep : ℝ) : List CartesianPoint :=
  if trajDist pStart pEnd < 1e-6 then
    if max |pEnd.roll - pStart.roll| |pEnd.pitch - pStart.pitch| < 1e-6 then []
    else
      emitWaypoints pStart pEnd
        (max 2 (⌈max |pEnd.roll - pStart.roll| |pEnd.pitch - pStart.pitch| /
          orientationStep⌉).toNat)
  else emitWaypoints pStart pEnd (max 2 (⌈trajDist pStart pEnd / stepSize⌉).toNat)

/-- `v.toFixed(n)` coerced back to a number (`+wp.x.toFixed(4)` in the tick
callback), idealized as rounding to `n` decimal places over the reals. -/
def toFixed (n : ℕ) (v : ℝ) : ℝ := ((round (v * 10 ^ n) : ℤ) : ℝ) / 10 ^ n

/-- The executor-relevant component state of the `Arm` page: the React state
fields (`pos`, `angles`, `trajectory`, `currentWaypointIndex`, `isExecuting`,
`trajectoryHistory`) together with the mutable refs (`trajectoryRef`,
`waypointIndexRef`, `executingRef`) and whether the periodic interval of
`animationTimerRef` is currently installed (`timerActive`;
`clearInterval` guarantees a released interval never fires again). -/
structure ExecState where
  pos : Position
  angles : Angles
  trajectoryState : List CartesianPoint
  currentWaypointIndex : ℕ
  isExecuting : Bool
  trajectoryHistory : List CartesianPoint
  trajectoryRef : List CartesianPoint
  waypointIndexRef : ℕ
  executingRef : Bool
  timerActive : Bool

/-- The `currentPoint` built at the top of `startTrajectory`:
the live position with `roll`/`pitch` converted from degrees to radians. -/
def currentPointOf (s : ExecState) : CartesianPoint :=
  { x := s.pos.x, y := s.pos.y, z := s.pos.z,
    roll := deg2rad s.pos.roll, pitch := deg2rad s.pos.pitch }

/-- The state written by the accepting branch of `startTrajectory`: waypoints
stored into both the ref and the React state, indices reset to 0, executing
flags set, history seeded with the current point, and the fixed-rate interval
installed (a pre-existing interval is torn down first, so exactly one remains). -/
def startedState (s : ExecState) (waypoints : List CartesianPoint) : ExecState :=
  { s with
    trajectoryRef := waypoints
    waypointIndexRef := 0
    executingRef := true
    trajectoryState := waypoints
    currentWaypointIndex := 0
    isExecuting := true
    trajectoryHistory := [currentPointOf s]
    timerActive := true }

/-- `startTrajectory(targetPos)` from the source: plan from the current point,
return unchanged on an empty plan (`waypoints.length === 0`), return unchanged
(the early `return` in the validation loop) unless every waypoint passes
`isReachable`, otherwise commit the plan and start the timer. -/
def startTrajectory (stepSize orientationStep : ℝ) (s : ExecState)
    (targetPos : CartesianPoint) : ExecState :=
  let waypoints := generateLinearTrajectory (currentPointOf s) targetPos
    stepSize orientationStep
  if waypoints.length = 0 then s
  else if ∀ wp ∈ waypoints, isReachable wp.x wp.y wp.z wp.roll wp.pitch then
    startedState s waypoints
  else s

/-- `cancelTrajectory()` from the source: clear the interval, clear both
executing flags, empty the trajectory React state and reset its index. The
refs `trajectoryRef` and `waypointIndexRef` are (as in the source) left as
they were. -/
def cancelTrajectory (s : ExecState) : ExecState :=
  { s with
    timerActive := false
    executingRef := false
    isExecuting := false
    trajectoryState := []
    currentWaypointIndex := 0 }

/-- One firing of the interval callback installed by `startTrajectory`. A
state whose interval has been released (`timerActive = false`) is a fixed
point: `clearInterval` guarantees the callback never fires afterwards. -/
def tick (s : ExecState) : ExecState :=
  if s.timerActive then
    if s.trajectoryRef.length ≤ s.waypointIndexRef then
      { s with timerActive := false, executingRef := false, isExecuting := false }
    else
      let wp := s.trajectoryRef.getD s.waypointIndexRef default
      { s with
        angles := inverseKinematics wp.x wp.y wp.z wp.roll wp.pitch
        pos := { s.pos with
          x := toFixed 4 wp.x
          y := toFixed 4 wp.y
          z := toFixed 4 wp.z
          roll := toFixed 2 (radToDeg wp.roll)
          pitch := toFixed 2 (radToDeg wp.pitch) }
        currentWaypointIndex := s.waypointIndexRef
        trajectoryHistory := s.trajectoryHistory ++ [wp]
        waypointIndexRef := s.waypointIndexRef + 1 }
  else s

/-- `handleGoToTarget` from the source: with interpolation disabled the
target is written straight into the live position (roll/pitch converted to
degrees) with no reachability gate; with interpolation enabled the request
goes through `startTrajectory`. -/
def handleGoToTarget (interpolationEnabled : Bool) (stepSize orientationStep : ℝ)
    (targetInput : CartesianPoint) (s : ExecState) : ExecState :=
  if interpolationEnabled = false then
    { s with pos := { s.pos with
        x := targetInput.x
        y := targetInput.y
        z := targetInput.z
        roll := radToDeg targetInput.roll
        pitch := radToDeg targetInput.pitch } }
  else startTrajectory stepSize orientationStep s targetInput

/-- The payload of an inbound `pose` message. Each field is `some v` when the
wire value is a finite number and `none` otherwise, mirroring the guard
`nf = (v, fallback) => Number.isFinite(Number(v)) ? Number(v) : fallback`. -/
structure InPoseData where
  x : Option ℝ
  y : Option ℝ
  z : Option ℝ
  roll : Option ℝ
  pitch : Option ℝ

/-- `nf(v, fallback)`: the wire value when finite, the fallback otherwise. -/
def nf (v : Option ℝ) (fallback : ℝ) : ℝ := v.getD fallback

/-- The synchronization-relevant state: the `remoteControl` toggle, the
`updatingFromWS` suppression ref, the live position, and the pending
trailing-edge debounced outbound pose send held by `poseTimer`
(`some payload` when a send is scheduled). -/
structure SyncState where
  remoteControl : Bool
  updatingFromWS : Bool
  pos : Position
  poseTimer : Option (ℝ × ℝ × ℝ × ℝ × ℝ)

/-- The body of `ws.onmessage` for a parsed message: when the remote toggle
is on and the message is a `pose` envelope, set the suppression ref and
overwrite the five pose fields through `nf`; otherwise leave the state
alone. -/
def onMessagePose (msgType : String) (data : InPoseData) (s : SyncState) : SyncState :=
  if s.remoteControl = true ∧ msgType = "pose" then
    { s with
      updatingFromWS := true
      pos := { s.pos with
        x := nf data.x s.pos.x
        y := nf data.y s.pos.y
        z := nf data.z s.pos.z
        roll := nf data.roll s.pos.roll
        pitch := nf data.pitch s.pos.pitch } }
  else s

/-- The pose effect (the local-change notification on
`[pos.x, pos.y, pos.z, pos.roll, pos.pitch]`): return early while
`updatingFromWS` is set, otherwise (re)schedule the debounced outbound send
of the latest pose. -/
def poseChangeEffect (s : SyncState) : SyncState :=
  if s.updatingFromWS = true then s
  else { s with poseTimer := some (s.pos.x, s.pos.y, s.pos.z, s.pos.roll, s.pos.pitch) }

/-- Clearing the suppression ref, queued by
`queueMicrotask(() => { updatingFromWS.current = false })`. -/
def clearWSFlag (s : SyncState) : SyncState := { s with updatingFromWS := false }

/-- Processing of one inbound pose message end to end, in the order the
runtime realizes it: the handler body runs inside a plain WebSocket callback
and queues the suppression-ref clear with `queueMicrotask`, which therefore
runs at the end of that same task; the pose-change notification is a React
passive effect, deferred past the commit into a later task, so it runs last —
strictly after the suppression ref has already been cleared. -/
def processInboundPose (msgType : String) (data : InPoseData) (s : SyncState) : SyncState :=
  poseChangeEffect (clearWSFlag (onMessagePose msgType data s))

/-- A concrete idle executor state at the initial position of the source
(`x: 0.15, y: 0, z: 0.35, roll: 0, pitch: 0, joint8: 80, joint9: 45`),
with the z coordinate moved to 0 to make the witness arithmetic exact. -/
def sampleIdle : ExecState :=
  { pos := { x := 0, y := 0, z := 0, roll := 0, pitch := 0, joint8 := 80, joint9 := 45 }
    angles := ⟨0, 190, -140, -50, 0⟩
    trajectoryState := []
    currentWaypointIndex := 0
    isExecuting := false
    trajectoryHistory := []
    trajectoryRef := []
    waypointIndexRef := 0
    executingRef := false
    timerActive := false }

/-- The far-below-base target `(0, 0, -5, 0, 0)` used by the spec as the
canonical unreachable pose. -/
def deepTarget : CartesianPoint := ⟨0, 0, -5, 0, 0⟩

/-- A concrete synchronization state: remote authorship enabled, suppression
ref clear, the source's initial position, and no outbound pose send
pending. -/
def syncSample : SyncState :=
  { remoteControl := true
    updatingFromWS := false
    pos := { x := 0.15, y := 0, z := 0.35, roll := 0, pitch := 0, joint8 := 80, joint9 := 45 }
    poseTimer := none }

/-- A concrete inbound pose payload: finite x, y and roll, with z and pitch
absent or non-finite (so their `nf` fallbacks apply). -/
def inboundSample : InPoseData :=
  { x := some 0.3, y := some 0.1, z := none, roll := some 0.2, pitch := none }

/-- Evaluate `Real.sqrt` at a number recognized as a square. -/
theorem sqrt_eval (a b : ℝ) (hb : 0 ≤ b) (h : a = b ^ 2) : Real.sqrt a = b := by
  rw [h, Real.sqrt_sq hb]

/-- The known in-workspace pose `(0.15, 0, 0.35, 0, 0)` passes the
reachability gate. -/
theorem inworkspace_reachable : isReachable 0.15 0 0.35 0 0 := by
  show |reachD 0.15 0 0.35 0| ≤ 1
  have hs : Real.sqrt ((0.15 : ℝ) * 0.15 + 0 * 0) = 0.15 :=
    sqrt_eval _ _ (by norm_num) (by norm_num)
  rw [reachD]
  simp only [hs, Real.cos_zero, Real.sin_zero, l1, l2, l3, l4]
  rw [abs_le]
  constructor <;> norm_num

/-- The pose `(0, 0, -5, 0, 0)` far below the base fails the reachability
gate. -/
theorem deep_unreachable : ¬ isReachable 0 0 (-5) 0 0 := by
  show ¬ |reachD 0 0 (-5) 0| ≤ 1
  have hs : Real.sqrt ((0 : ℝ) * 0 + 0 * 0) = 0 := by
    rw [show (0 : ℝ) * 0 + 0 * 0 = 0 by norm_num, Real.sqrt_zero]
  rw [reachD]
  simp only [hs, Real.cos_zero, Real.sin_zero, l1, l2, l3, l4]
  rw [abs_le]
  push_neg
  intro h
  norm_num

/-- C4: `isReachable(x, y, z, roll, pitch)` holds exactly when `|d| ≤ 1` for
`d = (a² + b² − l2² − l3²) / (2·l2·l3)`, `a = sqrt(x² + y²) − l4·cos(pitch)`,
`b = z − l4·sin(pitch) − l1`; in particular
`isReachable(0.15, 0, 0.35, 0, 0)` is true and `isReachable(0, 0, -5, 0, 0)`
is false. -/
theorem isReachable_iff_absD_le_one :
    (∀ x y z roll pitch : ℝ, isReachable x y z roll pitch ↔
      |((Real.sqrt (x * x + y * y) - l4 * Real.cos pitch) *
          (Real.sqrt (x * x + y * y) - l4 * Real.cos pitch) +
        (z - l4 * Real.sin pitch - l1) * (z - l4 * Real.sin pitch - l1) -
        l2 * l2 - l3 * l3) / (2 * l2 * l3)| ≤ 1) ∧
    isReachable 0.15 0 0.35 0 0 ∧ ¬ isReachable 0 0 (-5) 0 0 :=
  ⟨fun x y z roll pitch => Iff.rfl, inworkspace_reachable, deep_unreachable⟩

/-- C5: the returned joint angles close the kinematic chain: the sum
`q2 + q3 + q4` of the returned (degree-valued) angles equals the commanded
pitch converted to the same degree units, for every input pose. -/
theorem inverseKinematics_pitch_closure (x y z roll pitch : ℝ) :
    (inverseKinematics x y z roll pitch).q2 + (inverseKinematics x y z roll pitch).q3 +
      (inverseKinematics x y z roll pitch).q4 = radToDeg pitch := by
  simp only [inverseKinematics, radToDeg]
  ring

/-- C9: for every input pose, the clamp applied inside `inverseKinematics`
keeps the planar cosine parameter `d` inside `[-1, 1]`, so the argument
`1 - d²` of the subsequent square root is nonnegative: no inverse-trig
domain error (the source of NaN in the floating-point original) can occur,
and the solver's `q3` is built from exactly this in-domain value. -/
theorem inverseKinematics_clamp_in_domain (x y z roll pitch : ℝ) :
    |ikClampedD x y z pitch| ≤ 1 ∧ 0 ≤ 1 - ikClampedD x y z pitch ^ 2 ∧
    (inverseKinematics x y z roll pitch).q3 =
      radToDeg (-(atan2 (Real.sqrt (1 - ikClampedD x y z pitch ^ 2))
        (ikClampedD x y z pitch))) := by
  have habs : |ikClampedD x y z pitch| ≤ 1 := by
    rw [ikClampedD, abs_le]
    exact ⟨le_max_left _ _, max_le (by norm_num) (min_le_left _ _)⟩
  refine ⟨habs, ?_, rfl⟩
  have := (sq_le_one_iff_abs_le_one (ikClampedD x y z pitch)).mpr habs
  linarith

/-- Evaluate `Int.ceil` of a real at a concrete integer. -/
theorem ceil_eval (a : ℝ) (z : ℤ) (h1 : (z : ℝ) - 1 < a) (h2 : a ≤ z) : ⌈a⌉ = z :=
  Int.ceil_eq_iff.mpr ⟨h1, h2⟩

/-- The emission loop produces exactly `numSteps` waypoints. -/
theorem emitWaypoints_length (p q : CartesianPoint) (n : ℕ) :
    (emitWaypoints p q n).length = n := by
  simp [emitWaypoints]

/-- The waypoint at 0-based list index `i` of the emission loop interpolates
every axis at parameter `t = (i+1)/n`. -/
theorem emitWaypoints_getD (p q : CartesianPoint) (n i : ℕ) (hi : i < n) :
    (emitWaypoints p q n).getD i default =
      { x := lerp p.x q.x (((i : ℝ) + 1) / (n : ℝ))
        y := lerp p.y q.y (((i : ℝ) + 1) / (n : ℝ))
        z := lerp p.z q.z (((i : ℝ) + 1) / (n : ℝ))
        roll := lerp p.roll q.roll (((i : ℝ) + 1) / (n : ℝ))
        pitch := lerp p.pitch q.pitch (((i : ℝ) + 1) / (n : ℝ)) } := by
  simp only [emitWaypoints, List.getD_eq_getElem?_getD, List.getElem?_map,
    List.getElem?_range hi]
  rfl

/-- C3: for every pair of poses whose translation distance is at least `1e-6`
and every positive `stepSize`, the planner returns exactly
`max(2, ceil(dist / stepSize))` waypoints, and the waypoint at 0-based index
`i` (the source's loop index `i+1`) interpolates x, y, z, roll and pitch
linearly at parameter `t = (i+1)/n`. -/
theorem generateLinear_length_and_lerp (pStart pEnd : CartesianPoint)
    (stepSize orientationStep : ℝ)
    (hdist : 1e-6 ≤ trajDist pStart pEnd) (hss : 0 < stepSize) :
    (generateLinearTrajectory pStart pEnd stepSize orientationStep).length =
      max 2 (⌈trajDist pStart pEnd / stepSize⌉).toNat ∧
    ∀ i : ℕ, i < max 2 (⌈trajDist pStart pEnd / stepSize⌉).toNat →
      (generateLinearTrajectory pStart pEnd stepSize orientationStep).getD i default =
        { x := lerp pStart.x pEnd.x (((i : ℝ) + 1) /
            ((max 2 (⌈trajDist pStart pEnd / stepSize⌉).toNat : ℕ) : ℝ))
          y := lerp pStart.y pEnd.y (((i : ℝ) + 1) /
            ((max 2 (⌈trajDist pStart pEnd / stepSize⌉).toNat : ℕ) : ℝ))
          z := lerp pStart.z pEnd.z (((i : ℝ) + 1) /
            ((max 2 (⌈trajDist pStart pEnd / stepSize⌉).toNat : ℕ) : ℝ))
          roll := lerp pStart.roll pEnd.roll (((i : ℝ) + 1) /
            ((max 2 (⌈trajDist pStart pEnd / stepSize⌉).toNat : ℕ) : ℝ))
          pitch := lerp pStart.pitch pEnd.pitch (((i : ℝ) + 1) /
            ((max 2 (⌈trajDist pStart pEnd / stepSize⌉).toNat : ℕ) : ℝ)) } := by
  have hnot : ¬ trajDist pStart pEnd < 1e-6 := not_lt.mpr hdist
  rw [generateLinearTrajectory, if_neg hnot]
  exact ⟨emitWaypoints_length _ _ _, fun i hi => emitWaypoints_getD _ _ _ i hi⟩

/-- Witness for C3 at the concrete call
`generateLinearTrajectory((0,0,0,0,0), (3,4,0,0,0), 2, 0.01)`:
the distance is 5, `max(2, ceil(5/2)) = 3` waypoints come back, and the
first one sits at `t = 1/3`. -/
theorem generateLinear_length_and_lerp_witness :
    (1e-6 : ℝ) ≤ trajDist ⟨0, 0, 0, 0, 0⟩ ⟨3, 4, 0, 0, 0⟩ ∧
    (generateLinearTrajectory ⟨0, 0, 0, 0, 0⟩ ⟨3, 4, 0, 0, 0⟩ 2 0.01).length = 3 ∧
    (generateLinearTrajectory ⟨0, 0, 0, 0, 0⟩ ⟨3, 4, 0, 0, 0⟩ 2 0.01).getD 0 default =
      ⟨1, 4 / 3, 0, 0, 0⟩ := by
  have hd : trajDist ⟨0, 0, 0, 0, 0⟩ ⟨3, 4, 0, 0, 0⟩ = 5 := by
    rw [trajDist]
    exact sqrt_eval _ _ (by norm_num) (by norm_num)
  have hceil : ⌈trajDist ⟨0, 0, 0, 0, 0⟩ ⟨3, 4, 0, 0, 0⟩ / 2⌉ = 3 := by
    rw [hd]
    exact ceil_eval _ _ (by norm_num) (by norm_num)
  have hmax : max 2 (⌈trajDist ⟨0, 0, 0, 0, 0⟩ ⟨3, 4, 0, 0, 0⟩ / 2⌉).toNat = 3 := by
    rw [hceil]
    rfl
  have h6 : (1e-6 : ℝ) ≤ trajDist ⟨0, 0, 0, 0, 0⟩ ⟨3, 4, 0, 0, 0⟩ := by
    rw [hd]; norm_num
  obtain ⟨h1, h2⟩ := generateLinear_length_and_lerp ⟨0, 0, 0, 0, 0⟩ ⟨3, 4, 0, 0, 0⟩
    2 0.01 h6 (by norm_num)
  refine ⟨h6, ?_, ?_⟩
  · rw [h1, hmax]
  · have h0 := h2 0 (by rw [hmax]; norm_num)
    rw [hmax] at h0
    rw [h0]
    simp only [CartesianPoint.mk.injEq, lerp]
    norm_num

/-- Interpolation at parameter one lands exactly on the second endpoint. -/
theorem lerp_one (a b : ℝ) : lerp a b 1 = b := by
  simp [lerp]

/-- The emission loop for a positive step count ends exactly at the target
pose: the last waypoint interpolates at `t = n/n = 1` on every axis. -/
theorem emitWaypoints_getLast (p q : CartesianPoint) (n : ℕ) (hn : n ≠ 0)
    (h : emitWaypoints p q n ≠ []) :
    (emitWaypoints p q n).getLast h = q := by
  rw [List.getLast_eq_getElem]
  have hlen : (emitWaypoints p q n).length = n := emitWaypoints_length p q n
  have hlt : (emitWaypoints p q n).length - 1 < n := by omega
  have hget : (emitWaypoints p q n).getD ((emitWaypoints p q n).length - 1) default =
      { x := lerp p.x q.x ((((emitWaypoints p q n).length - 1 : ℕ) + 1 : ℝ) / (n : ℝ))
        y := lerp p.y q.y ((((emitWaypoints p q n).length - 1 : ℕ) + 1 : ℝ) / (n : ℝ))
        z := lerp p.z q.z ((((emitWaypoints p q n).length - 1 : ℕ) + 1 : ℝ) / (n : ℝ))
        roll := lerp p.roll q.roll ((((emitWaypoints p q n).length - 1 : ℕ) + 1 : ℝ) / (n : ℝ))
        pitch := lerp p.pitch q.pitch ((((emitWaypoints p q n).length - 1 : ℕ) + 1 : ℝ) / (n : ℝ)) } :=
    emitWaypoints_getD p q n _ hlt
  have hgd : (emitWaypoints p q n).getD ((emitWaypoints p q n).length - 1) default =
      (emitWaypoints p q n).getLast h := by
    rw [List.getLast_eq_getElem, List.getD_eq_getElem?_getD, List.getElem?_eq_getElem]
    rfl
  have ht : ((((emitWaypoints p q n).length - 1 : ℕ) : ℝ) + 1) / (n : ℝ) = 1 := by
    rw [hlen]
    have : (((n - 1 : ℕ) : ℝ) + 1) = (n : ℝ) := by
      have h1 : 1 ≤ n := Nat.one_le_iff_ne_zero.mpr hn
      push_cast [h1]
      ring
    rw [this]
    exact div_self (Nat.cast_ne_zero.mpr hn)
  rw [List.getLast_eq_getElem] at hgd
  rw [← hgd, hget, ht]
  ext <;> simp [lerp_one]

/-- The emission loop at a clamped step count `max 2 k` is nonempty, never a
singleton, and ends at the target pose. -/
theorem emitWaypoints_terminal (p q : CartesianPoint) (k : ℕ) :
    emitWaypoints p q (max 2 k) ≠ [] ∧
    (emitWaypoints p q (max 2 k)).length ≠ 1 ∧
    (emitWaypoints p q (max 2 k)).getLast? = some q := by
  have h2 : 2 ≤ max 2 k := Nat.le_max_left 2 k
  have hn : max 2 k ≠ 0 := by omega
  have hlen : (emitWaypoints p q (max 2 k)).length = max 2 k :=
    emitWaypoints_length p q (max 2 k)
  have hne : emitWaypoints p q (max 2 k) ≠ [] := by
    intro hnil
    rw [hnil] at hlen
    simp at hlen
    omega
  refine ⟨hne, by omega, ?_⟩
  rw [List.getLast?_eq_getLast _ hne, emitWaypoints_getLast p q _ hn hne]

/-- C10: every planner output is either empty or has at least two waypoints
(never exactly one), and when nonempty its last waypoint is exactly the
requested end pose — interpolation at `t = n/n = 1` reproduces the end value
on every axis. -/
theorem generateLinear_terminal (pStart pEnd : CartesianPoint) (ss os : ℝ) :
    (generateLinearTrajectory pStart pEnd ss os).length ≠ 1 ∧
    (generateLinearTrajectory pStart pEnd ss os ≠ [] →
      (generateLinearTrajectory pStart pEnd ss os).getLast? = some pEnd) := by
  rw [generateLinearTrajectory]
  split_ifs with h1 h2
  · exact ⟨by simp, fun h => absurd rfl h⟩
  · exact ⟨(emitWaypoints_terminal _ _ _).2.1, fun h => (emitWaypoints_terminal _ _ _).2.2⟩
  · exact ⟨(emitWaypoints_terminal _ _ _).2.1, fun h => (emitWaypoints_terminal _ _ _).2.2⟩

/-- Witness for C10 at the concrete call
`generateLinearTrajectory((0,0,0,0,0), (0,0,0,1,0), 1, 0.5)` — a pure
orientation move planned in `max(2, ceil(1/0.5)) = 2` steps: the output is
nonempty, not a singleton, and ends exactly at the target. -/
theorem generateLinear_terminal_witness :
    generateLinearTrajectory ⟨0, 0, 0, 0, 0⟩ ⟨0, 0, 0, 1, 0⟩ 1 0.5 ≠ [] ∧
    (generateLinearTrajectory ⟨0, 0, 0, 0, 0⟩ ⟨0, 0, 0, 1, 0⟩ 1 0.5).length ≠ 1 ∧
    (generateLinearTrajectory ⟨0, 0, 0, 0, 0⟩ ⟨0, 0, 0, 1, 0⟩ 1 0.5).getLast? =
      some ⟨0, 0, 0, 1, 0⟩ := by
  have hd : trajDist ⟨0, 0, 0, 0, 0⟩ ⟨0, 0, 0, 1, 0⟩ = 0 := by
    rw [trajDist]
    rw [show ((0 : ℝ) - 0) * (0 - 0) + (0 - 0) * (0 - 0) + (0 - 0) * (0 - 0) = 0 by norm_num]
    exact Real.sqrt_zero
  have h1 : trajDist ⟨0, 0, 0, 0, 0⟩ ⟨0, 0, 0, 1, 0⟩ < 1e-6 := by rw [hd]; norm_num
  have h2 : ¬ max |(⟨0, 0, 0, 1, 0⟩ : CartesianPoint).roll - (⟨0, 0, 0, 0, 0⟩ : CartesianPoint).roll|
      |(⟨0, 0, 0, 1, 0⟩ : CartesianPoint).pitch - (⟨0, 0, 0, 0, 0⟩ : CartesianPoint).pitch| < 1e-6 := by
    norm_num
  have heq : generateLinearTrajectory ⟨0, 0, 0, 0, 0⟩ ⟨0, 0, 0, 1, 0⟩ 1 0.5 =
      emitWaypoints ⟨0, 0, 0, 0, 0⟩ ⟨0, 0, 0, 1, 0⟩
        (max 2 (⌈max |(⟨0, 0, 0, 1, 0⟩ : CartesianPoint).roll - (⟨0, 0, 0, 0, 0⟩ : CartesianPoint).roll|
          |(⟨0, 0, 0, 1, 0⟩ : CartesianPoint).pitch - (⟨0, 0, 0, 0, 0⟩ : CartesianPoint).pitch| / 0.5⌉).toNat) := by
    rw [generateLinearTrajectory, if_pos h1, if_neg h2]
  have hne : generateLinearTrajectory ⟨0, 0, 0, 0, 0⟩ ⟨0, 0, 0, 1, 0⟩ 1 0.5 ≠ [] := by
    rw [heq]
    exact (emitWaypoints_terminal _ _ _).1
  exact ⟨hne, (generateLinear_terminal ⟨0, 0, 0, 0, 0⟩ ⟨0, 0, 0, 1, 0⟩ 1 0.5).1,
    (generateLinear_terminal ⟨0, 0, 0, 0, 0⟩ ⟨0, 0, 0, 1, 0⟩ 1 0.5).2 hne⟩

/-- The validation loop of `startTrajectory`: one unreachable waypoint makes
the whole request a no-op (the early `return` fires before any state write). -/
theorem startTrajectory_reject (ss os : ℝ) (s : ExecState) (t : CartesianPoint)
    (h : ∃ wp ∈ generateLinearTrajectory (currentPointOf s) t ss os,
      ¬ isReachable wp.x wp.y wp.z wp.roll wp.pitch) :
    startTrajectory ss os s t = s := by
  obtain ⟨wp, hmem, hwp⟩ := h
  have hne : ¬ (generateLinearTrajectory (currentPointOf s) t ss os).length = 0 := by
    intro h0
    rw [List.length_eq_zero] at h0
    rw [h0] at hmem
    exact List.not_mem_nil wp hmem
  have hnall : ¬ ∀ wp ∈ generateLinearTrajectory (currentPointOf s) t ss os,
      isReachable wp.x wp.y wp.z wp.roll wp.pitch :=
    fun hall => hwp (hall wp hmem)
  simp only [startTrajectory]
  rw [if_neg hne, if_neg hnall]

/-- C1: if any waypoint of the planned trajectory fails the reachability
check, the go-to-target request is rejected wholesale: the resulting state is
exactly the prior state — the executor stays Idle, no timer is started, and
pose, joint angles, stored trajectory and waypoint index are all
unmutated — for every start state, target, stepSize and orientationStep. -/
theorem startTrajectory_unreachable_rejected (ss os : ℝ) (s : ExecState)
    (t : CartesianPoint)
    (h : ∃ wp ∈ generateLinearTrajectory (currentPointOf s) t ss os,
      ¬ isReachable wp.x wp.y wp.z wp.roll wp.pitch) :
    startTrajectory ss os s t = s ∧
    (startTrajectory ss os s t).isExecuting = s.isExecuting ∧
    (startTrajectory ss os s t).timerActive = s.timerActive ∧
    (startTrajectory ss os s t).pos = s.pos ∧
    (startTrajectory ss os s t).angles = s.angles ∧
    (startTrajectory ss os s t).trajectoryRef = s.trajectoryRef ∧
    (startTrajectory ss os s t).waypointIndexRef = s.waypointIndexRef := by
  have heq := startTrajectory_reject ss os s t h
  rw [heq]
  exact ⟨rfl, rfl, rfl, rfl, rfl, rfl, rfl⟩

/-- The current point of the sample idle state is the origin pose. -/
theorem currentPoint_sampleIdle : currentPointOf sampleIdle = ⟨0, 0, 0, 0, 0⟩ := by
  rw [currentPointOf]
  ext <;> simp [sampleIdle, deg2rad]

/-- The sample plan toward the deep target: distance 5 covered in
`max(2, ceil(5/2.5)) = 2` steps. -/
theorem sampleTrajectory_eval :
    generateLinearTrajectory ⟨0, 0, 0, 0, 0⟩ deepTarget 2.5 0.01 =
      [⟨0, 0, -2.5, 0, 0⟩, ⟨0, 0, -5, 0, 0⟩] := by
  have hd : trajDist ⟨0, 0, 0, 0, 0⟩ deepTarget = 5 := by
    rw [trajDist, deepTarget]
    exact sqrt_eval _ _ (by norm_num) (by norm_num)
  have hceil : ⌈trajDist ⟨0, 0, 0, 0, 0⟩ deepTarget / 2.5⌉ = 2 := by
    rw [hd]
    exact ceil_eval _ _ (by norm_num) (by norm_num)
  rw [generateLinearTrajectory, if_neg (by rw [hd]; norm_num), hceil]
  show emitWaypoints ⟨0, 0, 0, 0, 0⟩ deepTarget 2 = _
  simp only [emitWaypoints, deepTarget, List.range_succ, List.range_zero,
    List.nil_append, List.map_append, List.map_cons, List.map_nil,
    List.cons_append, List.cons.injEq, CartesianPoint.mk.injEq, lerp, and_true]
  norm_num

/-- The middle waypoint `(0, 0, -2.5, 0, 0)` of the sample plan fails the
reachability gate, so the sample plan contains an unreachable waypoint. -/
theorem sample_unreachable_ex :
    ∃ wp ∈ generateLinearTrajectory (currentPointOf sampleIdle) deepTarget 2.5 0.01,
      ¬ isReachable wp.x wp.y wp.z wp.roll wp.pitch := by
  rw [currentPoint_sampleIdle, sampleTrajectory_eval]
  refine ⟨⟨0, 0, -2.5, 0, 0⟩, by simp, ?_⟩
  show ¬ |reachD 0 0 (-2.5) 0| ≤ 1
  have hs : Real.sqrt ((0 : ℝ) * 0 + 0 * 0) = 0 := by
    rw [show (0 : ℝ) * 0 + 0 * 0 = 0 by norm_num, Real.sqrt_zero]
  rw [reachD]
  simp only [hs, Real.cos_zero, Real.sin_zero, l1, l2, l3, l4]
  rw [abs_le]
  push_neg
  intro h
  norm_num

/-- Witness for C1: starting from the sample idle state toward the deep
target `(0, 0, -5, 0, 0)` with stepSize 2.5, the plan contains an unreachable
waypoint and the request leaves the state untouched. -/
theorem startTrajectory_unreachable_rejected_witness :
    (∃ wp ∈ generateLinearTrajectory (currentPointOf sampleIdle) deepTarget 2.5 0.01,
      ¬ isReachable wp.x wp.y wp.z wp.roll wp.pitch) ∧
    startTrajectory 2.5 0.01 sampleIdle deepTarget = sampleIdle ∧
    (startTrajectory 2.5 0.01 sampleIdle deepTarget).isExecuting = false :=
  ⟨sample_unreachable_ex,
    (startTrajectory_unreachable_rejected 2.5 0.01 sampleIdle deepTarget
      sample_unreachable_ex).1,
    by rw [(startTrajectory_unreachable_rejected 2.5 0.01 sampleIdle deepTarget
      sample_unreachable_ex).1]; rfl⟩

/-- C2: `cancelTrajectory` releases the periodic timer in the same atomic
state transition that reports Idle, and after cancellation no number of
further tick events changes the state: no further waypoint is applied to the
pose and the waypoint index never advances past the cancellation point — for
every state (hence every trajectory and cancellation tick). -/
theorem cancelTrajectory_releases_timer_and_halts (s : ExecState) (n : ℕ) :
    (cancelTrajectory s).timerActive = false ∧
    (cancelTrajectory s).isExecuting = false ∧
    (cancelTrajectory s).executingRef = false ∧
    (cancelTrajectory s).pos = s.pos ∧
    (cancelTrajectory s).waypointIndexRef = s.waypointIndexRef ∧
    tick^[n] (cancelTrajectory s) = cancelTrajectory s := by
  refine ⟨rfl, rfl, rfl, rfl, rfl, Function.iterate_fixed ?_ n⟩
  rfl

/-- C7: with interpolation disabled, a go-to-target request writes the target
pose straight into the live position — for every target, with no reachability
gate anywhere on that path — while with interpolation enabled a plan
containing an unreachable waypoint leaves the state untouched. -/
theorem handleGoToTarget_direct_bypasses_gate :
    (∀ (ss os : ℝ) (s : ExecState) (t : CartesianPoint),
      handleGoToTarget false ss os t s =
        { s with pos := { s.pos with
            x := t.x, y := t.y, z := t.z,
            roll := radToDeg t.roll, pitch := radToDeg t.pitch } }) ∧
    (∀ (ss os : ℝ) (s : ExecState) (t : CartesianPoint),
      (∃ wp ∈ generateLinearTrajectory (currentPointOf s) t ss os,
        ¬ isReachable wp.x wp.y wp.z wp.roll wp.pitch) →
      handleGoToTarget true ss os t s = s) := by
  constructor
  · intro ss os s t
    rfl
  · intro ss os s t h
    show startTrajectory ss os s t = s
    exact startTrajectory_reject ss os s t h

/-- Witness for C7: the deep target `(0, 0, -5, 0, 0)` is itself unreachable,
yet with interpolation disabled it is applied verbatim to the live position;
with interpolation enabled the same request is rejected without mutation. -/
theorem handleGoToTarget_direct_bypasses_gate_witness :
    (¬ isReachable deepTarget.x deepTarget.y deepTarget.z deepTarget.roll
      deepTarget.pitch) ∧
    handleGoToTarget false 2.5 0.01 deepTarget sampleIdle =
      { sampleIdle with pos := { sampleIdle.pos with
          x := deepTarget.x, y := deepTarget.y, z := deepTarget.z,
          roll := radToDeg deepTarget.roll, pitch := radToDeg deepTarget.pitch } } ∧
    handleGoToTarget true 2.5 0.01 deepTarget sampleIdle = sampleIdle :=
  ⟨deep_unreachable,
    handleGoToTarget_direct_bypasses_gate.1 2.5 0.01 sampleIdle deepTarget,
    handleGoToTarget_direct_bypasses_gate.2 2.5 0.01 sampleIdle deepTarget
      sample_unreachable_ex⟩

/-- C8: on a degenerate request (translation distance and both orientation
deltas below `1e-6`) the planner returns the empty sequence, and the executor
treats an empty plan as a no-op: `startTrajectory` returns without starting
execution or mutating any state. -/
theorem generateLinear_empty_and_start_noop :
    (∀ (p q : CartesianPoint) (ss os : ℝ),
      trajDist p q < 1e-6 →
      max |q.roll - p.roll| |q.pitch - p.pitch| < 1e-6 →
      generateLinearTrajectory p q ss os = []) ∧
    (∀ (ss os : ℝ) (s : ExecState) (t : CartesianPoint),
      generateLinearTrajectory (currentPointOf s) t ss os = [] →
      startTrajectory ss os s t = s) := by
  constructor
  · intro p q ss os h1 h2
    rw [generateLinearTrajectory, if_pos h1, if_pos h2]
  · intro ss os s t h
    simp only [startTrajectory]
    rw [if_pos (by rw [h]; rfl)]

/-- Witness for C8: planning from the origin pose to itself yields the empty
sequence and the corresponding go-to-target request is a strict no-op. -/
theorem generateLinear_empty_and_start_noop_witness :
    generateLinearTrajectory ⟨0, 0, 0, 0, 0⟩ ⟨0, 0, 0, 0, 0⟩ 1 1 = [] ∧
    startTrajectory 1 1 sampleIdle ⟨0, 0, 0, 0, 0⟩ = sampleIdle := by
  have hd : trajDist ⟨0, 0, 0, 0, 0⟩ ⟨0, 0, 0, 0, 0⟩ = 0 := by
    rw [trajDist]
    rw [show ((0 : ℝ) - 0) * (0 - 0) + (0 - 0) * (0 - 0) + (0 - 0) * (0 - 0) = 0 by norm_num]
    exact Real.sqrt_zero
  have hempty := generateLinear_empty_and_start_noop.1 ⟨0, 0, 0, 0, 0⟩ ⟨0, 0, 0, 0, 0⟩
    1 1 (by rw [hd]; norm_num) (by norm_num)
  exact ⟨hempty, generateLinear_empty_and_start_noop.2 1 1 sampleIdle ⟨0, 0, 0, 0, 0⟩
    (by rw [currentPoint_sampleIdle]; exact hempty)⟩

/-- C6 is refuted by the code: while the remote-authorship toggle is enabled,
processing an inbound pose message does overwrite the local pose immediately
(per-field, with `nf` fallbacks), but the `queueMicrotask` clear resets the
suppression ref at the end of the handler's task, before the deferred
pose-change notification runs; the notification therefore observes the ref
already clear and schedules the debounced outbound pose send carrying exactly
the just-received values — the echo is not suppressed. -/
theorem inbound_pose_echoes (msgType : String) (data : InPoseData) (s : SyncState)
    (hrc : s.remoteControl = true) (hmt : msgType = "pose") :
    (processInboundPose msgType data s).pos = { s.pos with
        x := nf data.x s.pos.x
        y := nf data.y s.pos.y
        z := nf data.z s.pos.z
        roll := nf data.roll s.pos.roll
        pitch := nf data.pitch s.pos.pitch } ∧
    (processInboundPose msgType data s).updatingFromWS = false ∧
    (processInboundPose msgType data s).poseTimer =
      some (nf data.x s.pos.x, nf data.y s.pos.y, nf data.z s.pos.z,
        nf data.roll s.pos.roll, nf data.pitch s.pos.pitch) := by
  subst hmt
  have hmsg : onMessagePose "pose" data s = { s with
      updatingFromWS := true
      pos := { s.pos with
        x := nf data.x s.pos.x
        y := nf data.y s.pos.y
        z := nf data.z s.pos.z
        roll := nf data.roll s.pos.roll
        pitch := nf data.pitch s.pos.pitch } } := by
    rw [onMessagePose, if_pos ⟨hrc, rfl⟩]
  rw [processInboundPose, hmsg]
  exact ⟨rfl, rfl, rfl⟩

/-- Witness to the C6 failure at a concrete input: toggle on, no send
pending, inbound payload with finite x, y, roll. The pose is overwritten,
yet an outbound pose send carrying those same values ends up scheduled. -/
theorem inbound_pose_echoes_witness :
    (processInboundPose "pose" inboundSample syncSample).pos =
      { x := 0.3, y := 0.1, z := 0.35, roll := 0.2, pitch := 0,
        joint8 := 80, joint9 := 45 } ∧
    (processInboundPose "pose" inboundSample syncSample).updatingFromWS = false ∧
    syncSample.poseTimer = none ∧
    (processInboundPose "pose" inboundSample syncSample).poseTimer =
      some (0.3, 0.1, 0.35, 0.2, 0) := by
  obtain ⟨h1, h2, h3⟩ := inbound_pose_echoes "pose" inboundSample syncSample rfl rfl
  exact ⟨by rw [h1]; rfl, h2, rfl, by rw [h3]; rfl⟩
